import Mathlib

/-!
# Music player: a shallow embedding of `src/components/App/App.jsx`

The `App` component owns four pieces of state that matter here
(`playlist`, `currentTrackIndex`, `audio`, `volume`) and a set of event
handlers that are closures over the state of the render that created them.
Each handler below is a pure function from the state it closes over to
the state after React has applied the updates it queued, together with a
flag telling whether a `TypeError` escaped the handler.

Modelling conventions.

* A JavaScript number that is used as an index is either `NaN` or an
  integer (`parseInt` yields nothing else, and the handlers only add or
  subtract one or take `playlist.length - 1`).  Integers are exact, as they
  are in a double below `2 ^ 53`.
* `playlist[x]` is `undefined` whenever `x` is not an index of the array.
* `URL.createObjectURL` accepts a `File` and throws a `TypeError` on
  anything else.
* State updates queued before a handler throws are still applied.
* The argument of `formatTime` is a non-negative integer-valued double,
  given as the natural number it denotes; the division by 60 and the
  conversion of a number to a string are those of doubles.
* The display state `duration` and `currentTime` of the component and the
  two `localStorage` effects are not part of the model.
-/

namespace MusicPlayer

/-! ## Values -/

/-- A file handle returned by the file picker. -/
structure File where
  name : String
  blob : Nat
deriving DecidableEq, Repr

/-- An element of the `playlist` array. -/
inductive Entry where
  /-- a `File` chosen through the picker -/
  | file (f : File)
  /-- a plain object, as `JSON.parse` restores it from storage -/
  | plain
  /-- the value `undefined` -/
  | undefined
deriving DecidableEq, Repr

/-- A JavaScript number used as a track index. -/
inductive JSNum where
  | nan
  | int (z : Int)
deriving DecidableEq, Repr

namespace JSNum

/-- The sum `x + 1`. -/
def succ : JSNum → JSNum
  | nan => nan
  | int z => int (z + 1)

/-- The difference `x - 1`. -/
def pred : JSNum → JSNum
  | nan => nan
  | int z => int (z - 1)

/-- The comparison `x < y`; false as soon as one side is `NaN`. -/
def lt : JSNum → JSNum → Bool
  | int a, int b => decide (a < b)
  | _, _ => false

/-- The comparison `x >= y`; false as soon as one side is `NaN`. -/
def ge : JSNum → JSNum → Bool
  | int a, int b => decide (b ≤ a)
  | _, _ => false

end JSNum

/-- The property `playlist.length`. -/
def jsLength (playlist : List Entry) : JSNum :=
  JSNum.int (playlist.length : Int)

/-- The array access `playlist[x]`. -/
def jsIndex (playlist : List Entry) : JSNum → Entry
  | JSNum.nan => Entry.undefined
  | JSNum.int z => if 0 ≤ z then (playlist.get? z.toNat).getD Entry.undefined else Entry.undefined

/-- The call `URL.createObjectURL(x)`: the file the URL refers to, or
`none` when the call throws a `TypeError`. -/
def createObjectURL : Entry → Option File
  | Entry.file f => some f
  | _ => none

/-! ## Doubles in `formatTime` -/

/-- The integer nearest to `a / b`, ties to the even one. -/
def roundHalfEven (a b : Nat) : Nat :=
  let q := a / b
  let r := a % b
  if 2 * r < b then q else if b < 2 * r then q + 1 else if q % 2 = 0 then q else q + 1

/-- Binary logarithm by halving, with `fuel` halvings allowed. -/
def log2Fuel : Nat → Nat → Nat
  | 0, _ => 0
  | fuel + 1, x => if x < 2 then 0 else log2Fuel fuel (x / 2) + 1

/-- The exponent of the leading binary digit: `floor (log2 x)` for `x > 0`. -/
def log2 (x : Nat) : Nat :=
  log2Fuel x x

/-- The double nearest to the natural number `x`, as a natural number:
`x` rounded to 53 significant binary digits, ties to even. -/
def toDouble (x : Nat) : Nat :=
  if x < 2 ^ 53 then x
  else
    let sh := log2 x - 52
    roundHalfEven x (2 ^ sh) * 2 ^ sh

/-- The value of `Math.floor(n / d)` for doubles `n` and `d > 0` given as
natural numbers: `n / d` is rounded to the nearest double, with a 53-bit
significand `m` and the binary exponent `-k`, and then floored. -/
def floorDiv (n d : Nat) : Nat :=
  if n = 0 then 0
  else
    let e : Int := (log2 n : Int) - (log2 d : Int)
      - (if n * 2 ^ log2 d < d * 2 ^ log2 n then 1 else 0)
    let k : Int := 52 - e
    if 0 ≤ k then roundHalfEven (n * 2 ^ k.toNat) d / 2 ^ k.toNat
    else roundHalfEven n (d * 2 ^ (-k).toNat) * 2 ^ (-k).toNat

/-- The decimal with at most `k` significant digits, out of the two
multiples of `10 ^ (n - k)` around `v`, that converts to the double `v`;
the closer one if both do, the one with the even digit string on a tie. -/
def candidate (v n k : Nat) : Option Nat :=
  let t := 10 ^ (n - k)
  let lo := v / t * t
  let hi := lo + t
  if toDouble lo = v then
    if toDouble hi = v then
      (if v - lo < hi - v then some lo
       else if hi - v < v - lo then some hi
       else if (v / t) % 2 = 0 then some lo else some hi)
    else some lo
  else if toDouble hi = v then some hi
  else none

/-- Search for the first `k`, counting up, with a `candidate`. -/
def shortestFrom (v n : Nat) : Nat → Nat → Nat
  | 0, _ => v
  | fuel + 1, k =>
    match candidate v n k with
    | some c => c
    | none => shortestFrom v n fuel (k + 1)

/-- The decimal with the fewest significant digits that converts to the
double `v` (seventeen digits always suffice). -/
def shortestDecimal (v : Nat) : Nat :=
  shortestFrom v (Nat.toDigits 10 v).length 17 1

/-- Digits without their trailing zeros. -/
def dropTrailingZeros (ds : List Char) : List Char :=
  (ds.reverse.dropWhile (fun c => c = '0')).reverse

/-- The string a template literal makes of a non-negative integer-valued
double `v`: the shortest decimal that converts to `v`, written in full
when it is below `10 ^ 21` and in exponent form from there on. -/
def numberToString (v : Nat) : String :=
  let c := shortestDecimal v
  let ds := Nat.toDigits 10 c
  if c < 10 ^ 21 then Nat.repr c
  else
    match dropTrailingZeros ds with
    | [] => String.mk ds
    | [d] => String.mk [d] ++ "e+" ++ Nat.repr (ds.length - 1)
    | d :: rest => String.mk (d :: '.' :: rest) ++ "e+" ++ Nat.repr (ds.length - 1)

/-! ## State -/

/-- What a `handleTrackEnded` closure has captured from its render. -/
structure Closure where
  currentTrackIndex : JSNum
  playlist : List Entry
deriving DecidableEq, Repr

/-- An `Audio` element. `ident` tells instances apart; `volume` is in
hundredths. -/
structure Audio where
  ident : Nat
  src : File
  currentTime : Nat
  paused : Bool
  volume : Nat
  endedListeners : List Closure
deriving DecidableEq, Repr

/-- The state of the `App` component. `created` counts the evaluations of
`new Audio(...)` so far; `volume` is in hundredths. -/
structure State where
  playlist : List Entry
  currentTrackIndex : JSNum
  audio : Option Audio
  volume : Nat
  created : Nat
deriving DecidableEq, Repr

/-- The values of the `useState` initialisers (lines 6-9). -/
def State.initial : State :=
  ⟨[], JSNum.int 0, none, 50, 0⟩

/-- The variables a handler created in the render of `s` closes over. -/
def State.closure (s : State) : Closure :=
  ⟨s.currentTrackIndex, s.playlist⟩

/-- The state after a handler has run, and whether it threw. -/
structure Outcome where
  state : State
  threw : Bool
deriving DecidableEq, Repr

/-! ## Handlers -/

/-- Lines 68-71: `handleFileChange`; `file0` is `e.target.files[0]`. -/
def handleFileChange (s : State) (file0 : Option File) : State :=
  let file : Entry := match file0 with
    | some f => Entry.file f
    | none => Entry.undefined
  { s with playlist := s.playlist ++ [file] }

/-- Lines 73-83: `handlePlay`. -/
def handlePlay (s : State) : Outcome :=
  match s.audio with
  | some audio => ⟨{ s with audio := some { audio with paused := false } }, false⟩
  | none =>
    let track := jsIndex s.playlist s.currentTrackIndex
    match createObjectURL track with
    | none => ⟨s, true⟩
    | some url =>
      let newAudio : Audio :=
        { ident := s.created, src := url, currentTime := 0, paused := true,
          volume := 100, endedListeners := [] }
      let newAudio := { newAudio with endedListeners := newAudio.endedListeners ++ [s.closure] }
      ⟨{ s with audio := some { newAudio with paused := false }, created := s.created + 1 }, false⟩

/-- Lines 85-89: `handlePause`. -/
def handlePause (s : State) : State :=
  match s.audio with
  | some audio => { s with audio := some { audio with paused := true } }
  | none => s

/-- Lines 91-97: `handleTrackEnded` as created by the render `env`; its
`setCurrentTrackIndex` call acts on the live state `s`. -/
def handleTrackEnded (env : Closure) (s : State) : State :=
  if JSNum.lt env.currentTrackIndex (jsLength env.playlist).pred then
    { s with currentTrackIndex := env.currentTrackIndex.succ }
  else
    { s with currentTrackIndex := JSNum.int 0 }

/-- Lines 99-113: `handleNext`. Assigning `audio.src` loads the new
resource, which leaves the element paused at position 0. -/
def handleNext (s : State) : Outcome :=
  let nextIndex := s.currentTrackIndex.succ
  let nextIndex := if JSNum.ge nextIndex (jsLength s.playlist) then JSNum.int 0 else nextIndex
  let s := { s with currentTrackIndex := nextIndex }
  match s.audio with
  | none => ⟨s, false⟩
  | some audio =>
    let audio := { audio with paused := true }
    let audio := { audio with currentTime := 0 }
    match createObjectURL (jsIndex s.playlist nextIndex) with
    | none => ⟨{ s with audio := some audio }, true⟩
    | some url =>
      let audio := { audio with src := url, currentTime := 0, paused := true }
      ⟨{ s with audio := some { audio with paused := false } }, false⟩

/-- Lines 115-129: `handlePrevious`. Assigning `audio.src` loads the new
resource, which leaves the element paused at position 0. -/
def handlePrevious (s : State) : Outcome :=
  let prevIndex := s.currentTrackIndex.pred
  let prevIndex := if JSNum.lt prevIndex (JSNum.int 0) then (jsLength s.playlist).pred else prevIndex
  let s := { s with currentTrackIndex := prevIndex }
  match s.audio with
  | none => ⟨s, false⟩
  | some audio =>
    let audio := { audio with paused := true }
    let audio := { audio with currentTime := 0 }
    match createObjectURL (jsIndex s.playlist prevIndex) with
    | none => ⟨{ s with audio := some audio }, true⟩
    | some url =>
      let audio := { audio with src := url, currentTime := 0, paused := true }
      ⟨{ s with audio := some { audio with paused := false } }, false⟩

/-- Lines 131-137: `handleVolumeChange`; `newVolume` is the parsed slider
value in hundredths. -/
def handleVolumeChange (s : State) (newVolume : Nat) : State :=
  let s := { s with volume := newVolume }
  match s.audio with
  | some audio => { s with audio := some { audio with volume := newVolume } }
  | none => s

/-- Lines 139-141: `handleRemoveTrack`. -/
def handleRemoveTrack (s : State) (indexToRemove : Nat) : State :=
  { s with playlist :=
      (s.playlist.enum.filter (fun p => decide (p.1 ≠ indexToRemove))).map Prod.snd }

/-- Lines 143-147: `formatTime` on a non-negative integer-valued double. -/
def formatTime (timeInSeconds : Nat) : String :=
  let minutes := floorDiv timeInSeconds 60
  let seconds := timeInSeconds % 60
  numberToString minutes ++ ":" ++ (if seconds < 10 then "0" else "") ++ numberToString seconds

/-- Lines 33-38: the effect that copies `volume` onto the audio element. -/
def syncVolume (s : State) : State :=
  match s.audio with
  | some audio => { s with audio := some { audio with volume := s.volume } }
  | none => s

/-- Lines 172 and 187-189: whether rendering `s` throws, which it does
when `.name` is read from `undefined`. -/
def renderThrows (s : State) : Bool :=
  (s.audio.isSome && decide (jsIndex s.playlist s.currentTrackIndex = Entry.undefined))
    || s.playlist.any (fun track => decide (track = Entry.undefined))

/-! ## Events -/

/-- The events the component reacts to. -/
inductive Action where
  | fileChange (file0 : Option File)
  | play
  | pause
  | next
  | previous
  | ended
  | volumeChange (newVolume : Nat)
  | removeTrack (indexToRemove : Nat)
deriving DecidableEq, Repr

/-- Delivery of an `ended` event: every listener registered on the audio
element runs, in registration order. What the browser itself does to the
element when playback ends is left out. -/
def dispatchEnded (s : State) : State :=
  match s.audio with
  | none => s
  | some audio => audio.endedListeners.foldl (fun st env => handleTrackEnded env st) s

/-- The handler bound to an event, run on the latest render. -/
def handle (s : State) : Action → State
  | Action.fileChange file0 => handleFileChange s file0
  | Action.play => (handlePlay s).state
  | Action.pause => handlePause s
  | Action.next => (handleNext s).state
  | Action.previous => (handlePrevious s).state
  | Action.ended => dispatchEnded s
  | Action.volumeChange v => handleVolumeChange s v
  | Action.removeTrack i => handleRemoveTrack s i

/-- One event: the handler, then the effects of the following render. -/
def step (s : State) (a : Action) : State :=
  syncVolume (handle s a)

/-- A sequence of events, oldest first. -/
def run (s : State) (actions : List Action) : State :=
  actions.foldl step s

/-! ## Notions used in the statements -/

/-- The transport states of the controller. -/
inductive Transport where
  | idle
  | playing
  | paused
deriving DecidableEq, Repr

/-- The transport state a component state is in: `idle` without an audio
element, otherwise by the element being paused or not. -/
def transport (s : State) : Transport :=
  match s.audio with
  | none => Transport.idle
  | some audio => if audio.paused then Transport.paused else Transport.playing

/-- The index is an integer within `[0, playlist.length)`. -/
def indexInRange (playlist : List Entry) : JSNum → Prop
  | JSNum.nan => False
  | JSNum.int z => 0 ≤ z ∧ z < (playlist.length : Int)

/-- The number of `ended` listeners registered on the audio element. -/
def listenerCount (s : State) : Nat :=
  match s.audio with
  | none => 0
  | some audio => audio.endedListeners.length

/-- Either no audio element has been created, or exactly one has, and it
carries exactly one `ended` listener. -/
def SinglePlayer (s : State) : Prop :=
  (s.audio = none ∧ s.created = 0)
    ∨ (∃ audio, s.audio = some audio ∧ s.created = 1 ∧ audio.endedListeners.length = 1)

/-- Lines 100-103: the index `handleNext` passes to `setCurrentTrackIndex`. -/
def nextIndex (s : State) : JSNum :=
  if JSNum.ge s.currentTrackIndex.succ (jsLength s.playlist) then JSNum.int 0
  else s.currentTrackIndex.succ

/-- Lines 116-119: the index `handlePrevious` passes to
`setCurrentTrackIndex`. -/
def prevIndex (s : State) : JSNum :=
  if JSNum.lt s.currentTrackIndex.pred (JSNum.int 0) then (jsLength s.playlist).pred
  else s.currentTrackIndex.pred

/-- Tracks A, B and C are added, Play is pressed on A, then Next twice:
the audio element plays C at index 2. -/
def scenarioSkipped : State :=
  run State.initial
    [Action.fileChange (some ⟨"a.mp3", 1⟩), Action.fileChange (some ⟨"b.mp3", 2⟩),
      Action.fileChange (some ⟨"c.mp3", 3⟩), Action.play, Action.next, Action.next]

/-- The end-to-end scenario up to Play: track A is added, track B is added,
Play is pressed. -/
def scenarioPlaying : State :=
  run State.initial
    [Action.fileChange (some ⟨"a.mp3", 1⟩), Action.fileChange (some ⟨"b.mp3", 2⟩), Action.play]

/-! ## Auxiliary lemmas -/

theorem handleNext_index (s : State) :
    (handleNext s).state.currentTrackIndex =
      if JSNum.ge s.currentTrackIndex.succ (jsLength s.playlist) then JSNum.int 0
      else s.currentTrackIndex.succ := by
  unfold handleNext
  cases hA : s.audio with
  | none => simp [hA]
  | some a =>
    simp only [hA]
    split <;> rfl

theorem handlePrevious_index (s : State) :
    (handlePrevious s).state.currentTrackIndex =
      if JSNum.lt s.currentTrackIndex.pred (JSNum.int 0) then (jsLength s.playlist).pred
      else s.currentTrackIndex.pred := by
  unfold handlePrevious
  cases hA : s.audio with
  | none => simp [hA]
  | some a =>
    simp only [hA]
    split <;> rfl

theorem filter_enumFrom_ne_lt (l : List Entry) (k n : Nat) (h : n < k) :
    ((l.enumFrom k).filter (fun p => decide (p.1 ≠ n))).map Prod.snd = l := by
  induction l generalizing k with
  | nil => rfl
  | cons x xs ih =>
    have hk : k ≠ n := by omega
    simp only [List.enumFrom_cons, List.filter_cons, ne_eq, hk, not_false_eq_true, decide_True,
      if_true, List.map_cons]
    rw [ih (k + 1) (by omega)]

theorem filter_enumFrom_eraseIdx (l : List Entry) (k i : Nat) :
    ((l.enumFrom k).filter (fun p => decide (p.1 ≠ k + i))).map Prod.snd = l.eraseIdx i := by
  induction l generalizing k i with
  | nil => rfl
  | cons x xs ih =>
    cases i with
    | zero =>
      simp only [List.enumFrom_cons, List.filter_cons, Nat.add_zero, ne_eq, not_true_eq_false,
        decide_False, List.eraseIdx_cons_zero]
      exact filter_enumFrom_ne_lt xs (k + 1) k (by omega)
    | succ j =>
      have hk : k ≠ k + (j + 1) := by omega
      simp only [List.enumFrom_cons, List.filter_cons, ne_eq, hk, not_false_eq_true, decide_True,
        if_true, List.map_cons, List.eraseIdx_cons_succ]
      have h := ih (k + 1) j
      rw [show k + 1 + j = k + (j + 1) by omega] at h
      rw [h]

theorem handleRemoveTrack_eraseIdx (s : State) (i : Nat) :
    (handleRemoveTrack s i).playlist = s.playlist.eraseIdx i := by
  have h := filter_enumFrom_eraseIdx s.playlist 0 i
  rw [Nat.zero_add] at h
  exact h

/-! ## Index arithmetic of Next and Previous -/

/-- C1: on a playlist of length `N ≥ 1` with current index `i`, `0 ≤ i < N`,
`handleNext` sets the current index to `(i + 1) mod N`, with or without an
audio element; from `N - 1` it yields `0`, and on a playlist of length one
the index stays `0`. -/
theorem handleNext_wraparound (s : State) (i : Nat) (hi : i < s.playlist.length)
    (hidx : s.currentTrackIndex = JSNum.int (i : Int)) :
    (handleNext s).state.currentTrackIndex
        = JSNum.int (((i + 1) % s.playlist.length : Nat) : Int)
      ∧ (i = s.playlist.length - 1 → (handleNext s).state.currentTrackIndex = JSNum.int 0)
      ∧ (s.playlist.length = 1 → (handleNext s).state.currentTrackIndex = JSNum.int 0) := by
  have key : (handleNext s).state.currentTrackIndex
      = JSNum.int (((i + 1) % s.playlist.length : Nat) : Int) := by
    rw [handleNext_index, hidx]
    simp only [JSNum.succ, jsLength, JSNum.ge]
    by_cases hlast : i + 1 < s.playlist.length
    · have hge : ¬ ((s.playlist.length : Int) ≤ (i : Int) + 1) := by omega
      rw [Nat.mod_eq_of_lt hlast]
      simp [hge]
    · have hge : (s.playlist.length : Int) ≤ (i : Int) + 1 := by omega
      have hm : (i + 1) % s.playlist.length = 0 := by
        have hEq : i + 1 = s.playlist.length := by omega
        rw [hEq]
        exact Nat.mod_self _
      rw [hm]
      simp [hge]
  refine ⟨key, ?_, ?_⟩
  · intro hlast
    rw [key]
    have hEq : i + 1 = s.playlist.length := by omega
    rw [hEq, Nat.mod_self]
    rfl
  · intro hone
    rw [key, hone, Nat.mod_one]
    rfl

theorem handleNext_wraparound_witness :
    (handleNext ⟨[Entry.file ⟨"a.mp3", 1⟩, Entry.plain, Entry.file ⟨"c.mp3", 3⟩],
        JSNum.int 2, none, 50, 0⟩).state.currentTrackIndex = JSNum.int 0 := by
  have h := (handleNext_wraparound
    ⟨[Entry.file ⟨"a.mp3", 1⟩, Entry.plain, Entry.file ⟨"c.mp3", 3⟩], JSNum.int 2, none, 50, 0⟩
    2 (by decide) rfl).1
  exact h

/-- C2: on a playlist of length `N ≥ 1` with current index `i`, `0 ≤ i < N`,
`handlePrevious` sets the current index to `(i - 1 + N) mod N`; from `0` it
yields `N - 1`, and on a playlist of length one the index stays `0`. -/
theorem handlePrevious_wraparound (s : State) (i : Nat) (hi : i < s.playlist.length)
    (hidx : s.currentTrackIndex = JSNum.int (i : Int)) :
    (handlePrevious s).state.currentTrackIndex
        = JSNum.int (((i : Int) - 1 + (s.playlist.length : Int)) % (s.playlist.length : Int))
      ∧ (i = 0 → (handlePrevious s).state.currentTrackIndex
          = JSNum.int ((s.playlist.length : Int) - 1))
      ∧ (s.playlist.length = 1 → (handlePrevious s).state.currentTrackIndex = JSNum.int 0) := by
  have hcode : (handlePrevious s).state.currentTrackIndex
      = if i = 0 then JSNum.int ((s.playlist.length : Int) - 1) else JSNum.int ((i : Int) - 1) := by
    rw [handlePrevious_index, hidx]
    simp only [JSNum.pred, jsLength, JSNum.lt]
    by_cases h0 : i = 0
    · subst h0
      simp
    · have hnn : ¬ ((i : Int) - 1 < 0) := by omega
      simp [hnn, h0]
  have hmod : ((i : Int) - 1 + (s.playlist.length : Int)) % (s.playlist.length : Int)
      = if i = 0 then (s.playlist.length : Int) - 1 else (i : Int) - 1 := by
    by_cases h0 : i = 0
    · subst h0
      simp only [if_true]
      rw [Int.emod_eq_of_lt (by omega) (by omega)]
      omega
    · simp only [h0, if_false]
      rw [Int.add_emod_self]
      exact Int.emod_eq_of_lt (by omega) (by omega)
  refine ⟨?_, ?_, ?_⟩
  · rw [hcode, hmod]
    split <;> rfl
  · intro h0
    rw [hcode, if_pos h0]
  · intro hone
    have h0 : i = 0 := by omega
    rw [hcode, if_pos h0, hone]
    rfl

theorem handlePrevious_wraparound_witness :
    (handlePrevious ⟨[Entry.file ⟨"a.mp3", 1⟩, Entry.plain, Entry.file ⟨"c.mp3", 3⟩],
        JSNum.int 0, none, 50, 0⟩).state.currentTrackIndex = JSNum.int 2 := by
  have h := (handlePrevious_wraparound
    ⟨[Entry.file ⟨"a.mp3", 1⟩, Entry.plain, Entry.file ⟨"c.mp3", 3⟩], JSNum.int 0, none, 50, 0⟩
    0 (by decide) rfl).2.1 rfl
  exact h

/-! ## Time formatting -/

theorem log2Fuel_bounds (fuel x : Nat) (hx : 0 < x) (hf : x ≤ fuel) :
    2 ^ log2Fuel fuel x ≤ x ∧ x < 2 ^ (log2Fuel fuel x + 1) := by
  induction fuel generalizing x with
  | zero => omega
  | succ n ih =>
    unfold log2Fuel
    by_cases h2 : x < 2
    · simp only [h2, if_true]
      constructor
      · simpa using hx
      · simpa using h2
    · simp only [h2, if_false]
      have h := ih (x / 2) (by omega) (by omega)
      rw [pow_succ, pow_succ (n := log2Fuel n (x / 2) + 1)]
      omega

theorem log2_bounds (x : Nat) (hx : 0 < x) : 2 ^ log2 x ≤ x ∧ x < 2 ^ (log2 x + 1) :=
  log2Fuel_bounds x x hx (Nat.le_refl x)

theorem log2_lt_of_lt_pow (x n : Nat) (hx : 0 < x) (h : x < 2 ^ n) : log2 x < n := by
  by_contra hcon
  have hle : 2 ^ n ≤ 2 ^ log2 x := Nat.pow_le_pow_right (by decide) (by omega)
  have := (log2_bounds x hx).1
  omega

theorem le_log2_of_pow_le (x n : Nat) (hx : 0 < x) (h : 2 ^ n ≤ x) : n ≤ log2 x := by
  by_contra hcon
  have hle : 2 ^ (log2 x + 1) ≤ 2 ^ n := Nat.pow_le_pow_right (by decide) (by omega)
  have := (log2_bounds x hx).2
  omega

theorem div_le_roundHalfEven (a b : Nat) : a / b ≤ roundHalfEven a b := by
  unfold roundHalfEven
  simp only
  split
  · exact Nat.le_refl _
  · split
    · exact Nat.le_succ _
    · split
      · exact Nat.le_refl _
      · exact Nat.le_succ _

theorem roundHalfEven_scaled (s P : Nat) (hP : 32 ≤ P) :
    roundHalfEven (s * P) 60 / P = s / 60 := by
  have hs : s = 60 * (s / 60) + s % 60 := (Nat.div_add_mod s 60).symm
  have hR : s % 60 < 60 := Nat.mod_lt _ (by decide)
  have ha : s * P = 60 * (s / 60 * P) + s % 60 * P := by
    conv_lhs => rw [hs]
    ring
  have ht : s % 60 * P ≤ 59 * P := Nat.mul_le_mul_right P (by omega)
  have hsucc : (s / 60 + 1) * P = s / 60 * P + P := by ring
  apply Nat.div_eq_of_lt_le
  · have := div_le_roundHalfEven (s * P) 60
    omega
  · rw [hsucc]
    unfold roundHalfEven
    simp only
    split
    · omega
    · split
      · omega
      · split <;> omega

theorem floorDiv_sixty (s : Nat) (hs : s < 2 ^ 53) : floorDiv s 60 = s / 60 := by
  unfold floorDiv
  by_cases h0 : s = 0
  · simp [h0]
  · simp only [h0, if_false]
    have hl : log2 s < 53 := log2_lt_of_lt_pow s 53 (by omega) hs
    have h60 : log2 60 = 5 := by decide
    rw [h60]
    have hk : (5 : Int) ≤ 52 - ((log2 s : Int) - ((5 : Nat) : Int)
        - (if s * 2 ^ 5 < 60 * 2 ^ log2 s then 1 else 0)) := by
      split <;> omega
    have hk0 : (0 : Int) ≤ 52 - ((log2 s : Int) - ((5 : Nat) : Int)
        - (if s * 2 ^ 5 < 60 * 2 ^ log2 s then 1 else 0)) := by omega
    rw [if_pos hk0]
    apply roundHalfEven_scaled
    have h5 : 5 ≤ (52 - ((log2 s : Int) - ((5 : Nat) : Int)
        - (if s * 2 ^ 5 < 60 * 2 ^ log2 s then 1 else 0))).toNat := by omega
    calc 32 = 2 ^ 5 := by norm_num
      _ ≤ _ := Nat.pow_le_pow_right (by decide) h5

theorem toDouble_of_lt (x : Nat) (hx : x < 2 ^ 53) : toDouble x = x := by
  unfold toDouble
  rw [if_pos hx]

theorem le_toDouble (x : Nat) (hx : 2 ^ 53 ≤ x) : 2 ^ 53 ≤ toDouble x := by
  unfold toDouble
  have hnlt : ¬ x < 2 ^ 53 := by omega
  simp only [hnlt, if_false]
  have hpos : 0 < x := by
    have : 0 < 2 ^ 53 := by positivity
    omega
  have hL : 53 ≤ log2 x := le_log2_of_pow_le x 53 hpos hx
  have hb := (log2_bounds x hpos).1
  have hsplit : 2 ^ log2 x = 2 ^ 52 * 2 ^ (log2 x - 52) := by
    rw [← pow_add]
    congr 1
    omega
  have hq : 2 ^ 52 ≤ x / 2 ^ (log2 x - 52) := by
    rw [Nat.le_div_iff_mul_le (by positivity)]
    omega
  have hr := div_le_roundHalfEven x (2 ^ (log2 x - 52))
  have hsh : 2 ≤ 2 ^ (log2 x - 52) := by
    calc 2 = 2 ^ 1 := by norm_num
      _ ≤ _ := Nat.pow_le_pow_right (by decide) (by omega)
  calc 2 ^ 53 = 2 ^ 52 * 2 := by norm_num
    _ ≤ roundHalfEven x (2 ^ (log2 x - 52)) * 2 ^ (log2 x - 52) :=
      Nat.mul_le_mul (le_trans hq hr) hsh

theorem candidate_sound (v n k c : Nat) (h : candidate v n k = some c) : toDouble c = v := by
  unfold candidate at h
  simp only at h
  split at h
  · split at h
    · split at h
      · cases h; assumption
      · split at h
        · cases h; assumption
        · split at h <;> (cases h; assumption)
    · cases h; assumption
  · split at h
    · cases h; assumption
    · cases h

theorem shortestFrom_sound (v n fuel k : Nat) :
    toDouble (shortestFrom v n fuel k) = v ∨ shortestFrom v n fuel k = v := by
  induction fuel generalizing k with
  | zero => exact Or.inr rfl
  | succ m ih =>
    unfold shortestFrom
    cases hc : candidate v n k with
    | none => exact ih (k + 1)
    | some c => exact Or.inl (candidate_sound v n k c hc)

theorem shortestDecimal_of_lt (v : Nat) (hv : v < 2 ^ 53) : shortestDecimal v = v := by
  unfold shortestDecimal
  rcases shortestFrom_sound v (Nat.toDigits 10 v).length 17 1 with h | h
  · by_cases hc : shortestFrom v (Nat.toDigits 10 v).length 17 1 < 2 ^ 53
    · rw [toDouble_of_lt _ hc] at h
      exact h
    · have := le_toDouble _ (by omega : 2 ^ 53 ≤ shortestFrom v (Nat.toDigits 10 v).length 17 1)
      omega
  · exact h

theorem numberToString_of_lt (v : Nat) (hv : v < 2 ^ 53) : numberToString v = Nat.repr v := by
  unfold numberToString
  simp only [shortestDecimal_of_lt v hv]
  have h21 : v < 10 ^ 21 := by
    have : (2 : Nat) ^ 53 < 10 ^ 21 := by norm_num
    omega
  rw [if_pos h21]

theorem pad_seconds (r : Nat) (hr : r < 60) :
    (if r < 10 then "0" else "") ++ Nat.repr r
      = String.mk [Nat.digitChar (r / 10), Nat.digitChar (r % 10)] := by
  interval_cases r <;> decide

set_option maxRecDepth 4000 in
/-- C3, as stated, fails: `6 * 10 ^ 22` is an integer-valued double whose
quotient by 60 is `10 ^ 21`, which prints as `1e+21` and not as a decimal
numeral; and `67553994410557496` is an integer-valued double for which
`Math.floor(s / 60)` is one more than the integer quotient. -/
theorem formatTime_large_seconds :
    toDouble (6 * 10 ^ 22) = 6 * 10 ^ 22
      ∧ formatTime (6 * 10 ^ 22) = "1e+21:00"
      ∧ formatTime (6 * 10 ^ 22) ≠ Nat.repr (6 * 10 ^ 22 / 60) ++ (":" ++
          String.mk [Nat.digitChar (6 * 10 ^ 22 % 60 / 10), Nat.digitChar (6 * 10 ^ 22 % 60 % 10)])
      ∧ toDouble 67553994410557496 = 67553994410557496
      ∧ 67553994410557496 / 60 = 1125899906842624
      ∧ formatTime 67553994410557496 = "1125899906842625:56" := by
  decide

/-- C3, amended: for every non-negative integer `s` below `2 ^ 53`,
`formatTime s` is the decimal numeral of `s / 60`, a colon, and `s % 60`
written with exactly two decimal digits; the minutes are not reduced modulo
an hour. In particular `formatTime 5 = "0:05"`, `formatTime 65 = "1:05"`,
`formatTime 600 = "10:00"`. -/
theorem formatTime_spec (s : Nat) (hs : s < 2 ^ 53) :
    formatTime s = Nat.repr (s / 60) ++ (":" ++
        String.mk [Nat.digitChar (s % 60 / 10), Nat.digitChar (s % 60 % 10)])
      ∧ formatTime 5 = "0:05" ∧ formatTime 65 = "1:05" ∧ formatTime 600 = "10:00"
      ∧ formatTime 3600 = "60:00" := by
  refine ⟨?_, by decide, by decide, by decide, by decide⟩
  have hr : s % 60 < 60 := Nat.mod_lt _ (by decide)
  have hq : s / 60 < 2 ^ 53 := lt_of_le_of_lt (Nat.div_le_self s 60) hs
  have hm : s % 60 < 2 ^ 53 := lt_of_le_of_lt (Nat.mod_le s 60) hs
  show numberToString (floorDiv s 60) ++ ":" ++ (if s % 60 < 10 then "0" else "")
    ++ numberToString (s % 60) = _
  rw [floorDiv_sixty s hs, numberToString_of_lt _ hq, numberToString_of_lt _ hm,
    String.append_assoc, String.append_assoc, pad_seconds (s % 60) hr]

theorem formatTime_spec_witness :
    formatTime 9007199254740991 = "150119987579016:31" := by
  have h := (formatTime_spec 9007199254740991 (by decide)).1
  rw [h]
  decide

/-! ## Removal -/

/-- C4: for a playlist of length `N` and `0 ≤ i < N`, `handleRemoveTrack i`
yields a playlist of length `N - 1` that is the original with the element
at position `i` deleted: entries before `i` keep their position and entries
after `i` move down by one. -/
theorem handleRemoveTrack_playlist (s : State) (i : Nat) (hi : i < s.playlist.length) :
    (handleRemoveTrack s i).playlist.length = s.playlist.length - 1
      ∧ (handleRemoveTrack s i).playlist = s.playlist.take i ++ s.playlist.drop (i + 1)
      ∧ (∀ j, j < i → (handleRemoveTrack s i).playlist.get? j = s.playlist.get? j)
      ∧ (∀ j, i ≤ j → (handleRemoveTrack s i).playlist.get? j = s.playlist.get? (j + 1)) := by
  rw [handleRemoveTrack_eraseIdx]
  refine ⟨List.length_eraseIdx_of_lt hi, List.eraseIdx_eq_take_drop_succ _ _, ?_, ?_⟩
  · intro j hj
    simp only [List.get?_eq_getElem?]
    exact List.getElem?_eraseIdx_of_lt _ _ _ hj
  · intro j hj
    simp only [List.get?_eq_getElem?]
    exact List.getElem?_eraseIdx_of_ge _ _ _ hj

theorem handleRemoveTrack_playlist_witness :
    (handleRemoveTrack ⟨[Entry.file ⟨"a.mp3", 1⟩, Entry.plain, Entry.file ⟨"c.mp3", 3⟩],
        JSNum.int 0, none, 50, 0⟩ 1).playlist
      = [Entry.file ⟨"a.mp3", 1⟩, Entry.file ⟨"c.mp3", 3⟩] := by
  have h := (handleRemoveTrack_playlist
    ⟨[Entry.file ⟨"a.mp3", 1⟩, Entry.plain, Entry.file ⟨"c.mp3", 3⟩], JSNum.int 0, none, 50, 0⟩
    1 (by decide)).2.1
  exact h

/-- C10: `handleRemoveTrack i` leaves the current index and the audio
element as they are, for every state and every `i`; hence when the index is
`N - 1` on a playlist of length `N ≥ 1`, removing any track `i < N` leaves
the index `N - 1` on a playlist of length `N - 1`, outside `[0, N - 1)`. -/
theorem handleRemoveTrack_frame (s : State) (i : Nat) :
    (handleRemoveTrack s i).currentTrackIndex = s.currentTrackIndex
      ∧ (handleRemoveTrack s i).audio = s.audio
      ∧ (1 ≤ s.playlist.length → i < s.playlist.length →
          s.currentTrackIndex = JSNum.int ((s.playlist.length : Int) - 1) →
          indexInRange s.playlist s.currentTrackIndex
            ∧ (handleRemoveTrack s i).currentTrackIndex
                = JSNum.int ((s.playlist.length : Int) - 1)
            ∧ (handleRemoveTrack s i).playlist.length = s.playlist.length - 1
            ∧ ¬ indexInRange (handleRemoveTrack s i).playlist
                (handleRemoveTrack s i).currentTrackIndex) := by
  refine ⟨rfl, rfl, ?_⟩
  intro hN hi hidx
  have hlen : (handleRemoveTrack s i).playlist.length = s.playlist.length - 1 := by
    rw [handleRemoveTrack_eraseIdx]
    exact List.length_eraseIdx_of_lt hi
  have hcur : (handleRemoveTrack s i).currentTrackIndex
      = JSNum.int ((s.playlist.length : Int) - 1) := hidx
  refine ⟨?_, hcur, hlen, ?_⟩
  · rw [hidx]
    show 0 ≤ (s.playlist.length : Int) - 1 ∧ (s.playlist.length : Int) - 1 < s.playlist.length
    omega
  · rw [hcur]
    show ¬ (0 ≤ (s.playlist.length : Int) - 1
      ∧ (s.playlist.length : Int) - 1 < ((handleRemoveTrack s i).playlist.length : Int))
    rw [hlen]
    omega

theorem handleRemoveTrack_frame_witness :
    ¬ indexInRange
      (handleRemoveTrack ⟨[Entry.file ⟨"a.mp3", 1⟩, Entry.file ⟨"b.mp3", 2⟩],
        JSNum.int 1, none, 50, 0⟩ 0).playlist
      (handleRemoveTrack ⟨[Entry.file ⟨"a.mp3", 1⟩, Entry.file ⟨"b.mp3", 2⟩],
        JSNum.int 1, none, 50, 0⟩ 0).currentTrackIndex := by
  have h := (handleRemoveTrack_frame
    ⟨[Entry.file ⟨"a.mp3", 1⟩, Entry.file ⟨"b.mp3", 2⟩], JSNum.int 1, none, 50, 0⟩ 0).2.2
    (by decide) (by decide) rfl
  exact h.2.2.2

/-! ## The audio element across events -/

theorem dispatch_fold_frame (ls : List Closure) (s : State) :
    (ls.foldl (fun st env => handleTrackEnded env st) s).audio = s.audio
      ∧ (ls.foldl (fun st env => handleTrackEnded env st) s).created = s.created
      ∧ (ls.foldl (fun st env => handleTrackEnded env st) s).playlist = s.playlist
      ∧ (ls.foldl (fun st env => handleTrackEnded env st) s).volume = s.volume := by
  induction ls generalizing s with
  | nil => exact ⟨rfl, rfl, rfl, rfl⟩
  | cons env rest ih =>
    have h := ih (handleTrackEnded env s)
    have hs : (handleTrackEnded env s).audio = s.audio
        ∧ (handleTrackEnded env s).created = s.created
        ∧ (handleTrackEnded env s).playlist = s.playlist
        ∧ (handleTrackEnded env s).volume = s.volume := by
      unfold handleTrackEnded
      split <;> exact ⟨rfl, rfl, rfl, rfl⟩
    simp only [List.foldl_cons]
    exact ⟨h.1.trans hs.1, h.2.1.trans hs.2.1, h.2.2.1.trans hs.2.2.1, h.2.2.2.trans hs.2.2.2⟩

theorem singlePlayer_syncVolume (s : State) (h : SinglePlayer s) : SinglePlayer (syncVolume s) := by
  unfold syncVolume
  rcases h with ⟨hA, hC⟩ | ⟨a, hA, hC, hL⟩
  · simp only [hA]
    exact Or.inl ⟨hA, hC⟩
  · simp only [hA]
    exact Or.inr ⟨_, rfl, hC, hL⟩

theorem singlePlayer_handle (s : State) (act : Action) (h : SinglePlayer s) :
    SinglePlayer (handle s act) := by
  rcases h with ⟨hA, hC⟩ | ⟨a, hA, hC, hL⟩
  · cases act with
    | fileChange file0 => exact Or.inl ⟨hA, hC⟩
    | play =>
      show SinglePlayer (handlePlay s).state
      unfold handlePlay
      simp only [hA]
      split
      · exact Or.inl ⟨hA, hC⟩
      · refine Or.inr ⟨_, rfl, ?_, rfl⟩
        show s.created + 1 = 1
        rw [hC]
    | pause =>
      show SinglePlayer (handlePause s)
      unfold handlePause
      simp only [hA]
      exact Or.inl ⟨hA, hC⟩
    | next =>
      show SinglePlayer (handleNext s).state
      unfold handleNext
      simp only [hA]
      exact Or.inl ⟨rfl, hC⟩
    | previous =>
      show SinglePlayer (handlePrevious s).state
      unfold handlePrevious
      simp only [hA]
      exact Or.inl ⟨rfl, hC⟩
    | ended =>
      show SinglePlayer (dispatchEnded s)
      unfold dispatchEnded
      simp only [hA]
      exact Or.inl ⟨hA, hC⟩
    | volumeChange v =>
      show SinglePlayer (handleVolumeChange s v)
      unfold handleVolumeChange
      simp only [hA]
      exact Or.inl ⟨rfl, hC⟩
    | removeTrack i => exact Or.inl ⟨hA, hC⟩
  · cases act with
    | fileChange file0 => exact Or.inr ⟨a, hA, hC, hL⟩
    | play =>
      show SinglePlayer (handlePlay s).state
      unfold handlePlay
      simp only [hA]
      exact Or.inr ⟨_, rfl, hC, hL⟩
    | pause =>
      show SinglePlayer (handlePause s)
      unfold handlePause
      simp only [hA]
      exact Or.inr ⟨_, rfl, hC, hL⟩
    | next =>
      show SinglePlayer (handleNext s).state
      unfold handleNext
      simp only [hA]
      split <;> exact Or.inr ⟨_, rfl, hC, hL⟩
    | previous =>
      show SinglePlayer (handlePrevious s).state
      unfold handlePrevious
      simp only [hA]
      split <;> exact Or.inr ⟨_, rfl, hC, hL⟩
    | ended =>
      show SinglePlayer (dispatchEnded s)
      unfold dispatchEnded
      simp only [hA]
      have hf := dispatch_fold_frame a.endedListeners s
      exact Or.inr ⟨a, hf.1.trans hA, hf.2.1.trans hC, hL⟩
    | volumeChange v =>
      show SinglePlayer (handleVolumeChange s v)
      unfold handleVolumeChange
      simp only [hA]
      exact Or.inr ⟨_, rfl, hC, hL⟩
    | removeTrack i => exact Or.inr ⟨a, hA, hC, hL⟩

theorem singlePlayer_run (actions : List Action) (s : State) (h : SinglePlayer s) :
    SinglePlayer (run s actions) := by
  induction actions generalizing s with
  | nil => exact h
  | cons act rest ih =>
    exact ih (step s act) (singlePlayer_syncVolume _ (singlePlayer_handle s act h))

/-- C5: when an audio element exists, `handlePlay` keeps that element (same
identity, source and listeners, now not paused), creates none and
registers no listener; and over any sequence of events starting without an
element, at most one element is ever created and at most one `ended`
listener is ever registered. -/
theorem handlePlay_idempotent :
    (∀ (s : State) (audio : Audio), s.audio = some audio →
        (∃ kept, (handlePlay s).state.audio = some kept
            ∧ kept.ident = audio.ident ∧ kept.src = audio.src
            ∧ kept.endedListeners = audio.endedListeners ∧ kept.paused = false)
          ∧ (handlePlay s).state.created = s.created
          ∧ listenerCount (handlePlay s).state = listenerCount s
          ∧ (handlePlay s).threw = false)
      ∧ (∀ (s : State) (actions : List Action), s.audio = none → s.created = 0 →
          (run s actions).created ≤ 1 ∧ listenerCount (run s actions) ≤ 1) := by
  constructor
  · intro s audio hA
    simp [handlePlay, listenerCount, hA]
  · intro s actions hA hC
    have h := singlePlayer_run actions s (Or.inl ⟨hA, hC⟩)
    unfold listenerCount
    rcases h with ⟨hA2, hC2⟩ | ⟨a, hA2, hC2, hL⟩
    · simp [hA2, hC2]
    · simp [hA2, hC2, hL]

theorem handlePlay_idempotent_witness :
    (run State.initial [Action.fileChange (some ⟨"a.mp3", 1⟩), Action.play, Action.play,
        Action.pause, Action.next, Action.play, Action.previous]).created ≤ 1
      ∧ listenerCount (run State.initial [Action.fileChange (some ⟨"a.mp3", 1⟩), Action.play,
        Action.play, Action.pause, Action.next, Action.play, Action.previous]) ≤ 1 :=
  handlePlay_idempotent.2 State.initial _ rfl rfl

/-! ## Next and Previous against the transport state -/

/-- C6, as stated, fails: from the idle state with two picked files,
`handleNext` and `handlePrevious` move the index and leave the component
idle, with no audio element and so nothing playing. -/
theorem next_previous_from_idle_stay_idle :
    transport (handleNext ⟨[Entry.file ⟨"a.mp3", 1⟩, Entry.file ⟨"b.mp3", 2⟩],
        JSNum.int 0, none, 50, 0⟩).state = Transport.idle
      ∧ transport (handlePrevious ⟨[Entry.file ⟨"a.mp3", 1⟩, Entry.file ⟨"b.mp3", 2⟩],
        JSNum.int 0, none, 50, 0⟩).state = Transport.idle
      ∧ ¬ (transport (handleNext ⟨[Entry.file ⟨"a.mp3", 1⟩, Entry.file ⟨"b.mp3", 2⟩],
        JSNum.int 0, none, 50, 0⟩).state = Transport.playing
          ∧ transport (handlePrevious ⟨[Entry.file ⟨"a.mp3", 1⟩, Entry.file ⟨"b.mp3", 2⟩],
        JSNum.int 0, none, 50, 0⟩).state = Transport.playing) := by
  decide

/-- With an audio element and a playlist entry at the new index that is not
a picked file, `handleNext` throws: the index has moved and the element is
left paused at position 0 on its old source. -/
theorem next_with_player_needs_file :
    (handleNext ⟨[Entry.plain, Entry.file ⟨"a.mp3", 1⟩], JSNum.int 1,
        some ⟨0, ⟨"a.mp3", 1⟩, 17, false, 50, [⟨JSNum.int 1, [Entry.plain, Entry.file ⟨"a.mp3", 1⟩]⟩]⟩,
        50, 1⟩).threw = true
      ∧ transport (handleNext ⟨[Entry.plain, Entry.file ⟨"a.mp3", 1⟩], JSNum.int 1,
        some ⟨0, ⟨"a.mp3", 1⟩, 17, false, 50, [⟨JSNum.int 1, [Entry.plain, Entry.file ⟨"a.mp3", 1⟩]⟩]⟩,
        50, 1⟩).state = Transport.paused := by
  decide

/-- C6, amended: when an audio element exists (playing or paused) and the
playlist entry at the new index is a picked file, `handleNext` and
`handlePrevious` set the new index and leave that same element playing,
bound to that file at position 0, without a fault and with nothing else
changed; when no element exists they set the new index and change nothing
else: no element is created and the component stays idle. -/
theorem next_previous_rebind (s : State) :
    (∀ (audio : Audio) (f : File), s.audio = some audio →
        jsIndex s.playlist (nextIndex s) = Entry.file f →
        handleNext s
            = ⟨{ s with
                  currentTrackIndex := nextIndex s
                  audio := some { audio with src := f, currentTime := 0, paused := false } },
                false⟩
          ∧ transport (handleNext s).state = Transport.playing)
      ∧ (∀ (audio : Audio) (f : File), s.audio = some audio →
        jsIndex s.playlist (prevIndex s) = Entry.file f →
        handlePrevious s
            = ⟨{ s with
                  currentTrackIndex := prevIndex s
                  audio := some { audio with src := f, currentTime := 0, paused := false } },
                false⟩
          ∧ transport (handlePrevious s).state = Transport.playing)
      ∧ (s.audio = none →
        handleNext s = ⟨{ s with currentTrackIndex := nextIndex s }, false⟩
          ∧ handlePrevious s = ⟨{ s with currentTrackIndex := prevIndex s }, false⟩
          ∧ transport (handleNext s).state = Transport.idle
          ∧ transport (handlePrevious s).state = Transport.idle) := by
  refine ⟨?_, ?_, ?_⟩
  · intro audio f hA hF
    unfold nextIndex at hF
    unfold handleNext transport nextIndex
    simp only [hA, hF, createObjectURL]
    simp
  · intro audio f hA hF
    unfold prevIndex at hF
    unfold handlePrevious transport prevIndex
    simp only [hA, hF, createObjectURL]
    simp
  · intro hA
    unfold handleNext handlePrevious transport nextIndex prevIndex
    simp only [hA]
    simp

theorem next_previous_rebind_witness :
    transport (handleNext ⟨[Entry.file ⟨"a.mp3", 1⟩, Entry.file ⟨"b.mp3", 2⟩], JSNum.int 0,
        some ⟨0, ⟨"a.mp3", 1⟩, 17, true, 50, [⟨JSNum.int 0, [Entry.file ⟨"a.mp3", 1⟩]⟩]⟩,
        50, 1⟩).state = Transport.playing
      ∧ handleNext ⟨[Entry.file ⟨"a.mp3", 1⟩, Entry.file ⟨"b.mp3", 2⟩], JSNum.int 0, none, 50, 0⟩
        = ⟨⟨[Entry.file ⟨"a.mp3", 1⟩, Entry.file ⟨"b.mp3", 2⟩], JSNum.int 1, none, 50, 0⟩, false⟩ :=
  ⟨((next_previous_rebind ⟨[Entry.file ⟨"a.mp3", 1⟩, Entry.file ⟨"b.mp3", 2⟩], JSNum.int 0,
        some ⟨0, ⟨"a.mp3", 1⟩, 17, true, 50, [⟨JSNum.int 0, [Entry.file ⟨"a.mp3", 1⟩]⟩]⟩,
        50, 1⟩).1 _ ⟨"b.mp3", 2⟩ rfl (by decide)).2,
    ((next_previous_rebind ⟨[Entry.file ⟨"a.mp3", 1⟩, Entry.file ⟨"b.mp3", 2⟩], JSNum.int 0,
        none, 50, 0⟩).2.2 rfl).1⟩

/-! ## The track-ended notification -/

/-- C7: the code where the notification and Next part ways. After adding A,
B and C, pressing Play and then Next twice, the index is `2`; the `ended`
notification runs the listener registered by Play, which still sees index
`0`, and sets the index to `1`, while `handleNext` from that same state sets
it to `0`. The notification leaves the audio element, the playlist and the
volume of every state unchanged. -/
theorem ended_notification_vs_next :
    scenarioSkipped.currentTrackIndex = JSNum.int 2
      ∧ scenarioSkipped.audio.map Audio.src = some ⟨"c.mp3", 3⟩
      ∧ scenarioSkipped.audio.map Audio.endedListeners
          = some [⟨JSNum.int 0,
              [Entry.file ⟨"a.mp3", 1⟩, Entry.file ⟨"b.mp3", 2⟩, Entry.file ⟨"c.mp3", 3⟩]⟩]
      ∧ (dispatchEnded scenarioSkipped).currentTrackIndex = JSNum.int 1
      ∧ (handleNext scenarioSkipped).state.currentTrackIndex = JSNum.int 0
      ∧ (dispatchEnded scenarioSkipped).currentTrackIndex
          ≠ (handleNext scenarioSkipped).state.currentTrackIndex
      ∧ (∀ s : State, (dispatchEnded s).audio = s.audio
          ∧ (dispatchEnded s).playlist = s.playlist
          ∧ (dispatchEnded s).volume = s.volume) := by
  refine ⟨by decide, by decide, by decide, by decide, by decide, by decide, ?_⟩
  intro s
  unfold dispatchEnded
  cases hA : s.audio with
  | none => exact ⟨hA, rfl, rfl⟩
  | some audio =>
    have h := dispatch_fold_frame audio.endedListeners s
    exact ⟨h.1.trans hA, h.2.2.1, h.2.2.2⟩

/-! ## File selection -/

/-- C8: what `handleFileChange` does. A change event without a file is not
a no-op: `undefined` is appended, the playlist grows by one, the state
differs from the one before, and the next render throws. A change event
with a file appends that file after the existing entries. -/
theorem handleFileChange_appends (s : State) :
    (handleFileChange s none).playlist = s.playlist ++ [Entry.undefined]
      ∧ (handleFileChange s none).playlist.length = s.playlist.length + 1
      ∧ handleFileChange s none ≠ s
      ∧ renderThrows (handleFileChange s none) = true
      ∧ (∀ f : File, handleFileChange s (some f)
          = { s with playlist := s.playlist ++ [Entry.file f] }) := by
  have hpl : (handleFileChange s none).playlist = s.playlist ++ [Entry.undefined] := rfl
  have hlen : (handleFileChange s none).playlist.length = s.playlist.length + 1 := by
    rw [hpl, List.length_append]
    rfl
  refine ⟨hpl, hlen, ?_, ?_, fun _ => rfl⟩
  · intro hEq
    rw [hEq] at hlen
    omega
  · unfold renderThrows
    rw [hpl]
    simp

/-! ## Repeated track completion -/

theorem handleTrackEnded_index_const (env : Closure) (s t : State) :
    (handleTrackEnded env s).currentTrackIndex = (handleTrackEnded env t).currentTrackIndex := by
  unfold handleTrackEnded
  split <;> rfl

theorem step_ended_single (s : State) (audio : Audio) (env : Closure)
    (hA : s.audio = some audio) (hL : audio.endedListeners = [env]) :
    (step s Action.ended).currentTrackIndex = (handleTrackEnded env s).currentTrackIndex
      ∧ ∃ audio2, (step s Action.ended).audio = some audio2 ∧ audio2.endedListeners = [env] := by
  have hstep : step s Action.ended = syncVolume (handleTrackEnded env s) := by
    show syncVolume (dispatchEnded s) = _
    unfold dispatchEnded
    simp only [hA, hL, List.foldl_cons, List.foldl_nil]
  have haud : (handleTrackEnded env s).audio = some audio := by
    unfold handleTrackEnded
    split <;> exact hA
  rw [hstep]
  unfold syncVolume
  rw [haud]
  exact ⟨rfl, _, rfl, hL⟩

/-- Once a single listener `env` is registered, every non-empty run of
`ended` events leaves the index that `env` computes: it does not advance
from one event to the next. -/
theorem ended_repeated_index (env : Closure) (k : Nat) (s : State) (audio : Audio)
    (hA : s.audio = some audio) (hL : audio.endedListeners = [env]) :
    (run s (List.replicate (k + 1) Action.ended)).currentTrackIndex
      = (handleTrackEnded env s).currentTrackIndex := by
  induction k generalizing s audio with
  | zero => exact (step_ended_single s audio env hA hL).1
  | succ n ih =>
    obtain ⟨_, audio2, hA2, hL2⟩ := step_ended_single s audio env hA hL
    show (run (step s Action.ended) (List.replicate (n + 1) Action.ended)).currentTrackIndex = _
    rw [ih (step s Action.ended) audio2 hA2 hL2]
    exact handleTrackEnded_index_const env _ _

/-- C9: the code on the end-to-end scenario. After adding A and B and
pressing Play the index is `0` and A is bound; the first `ended` event sets
the index to `1`; the second `ended` event sets it to `1` again, not to
`2 mod 2 = 0`, and so does the third. -/
theorem ended_twice_index :
    scenarioPlaying.currentTrackIndex = JSNum.int 0
      ∧ scenarioPlaying.audio.map Audio.src = some ⟨"a.mp3", 1⟩
      ∧ listenerCount scenarioPlaying = 1
      ∧ (run scenarioPlaying [Action.ended]).currentTrackIndex = JSNum.int 1
      ∧ (run scenarioPlaying [Action.ended, Action.ended]).currentTrackIndex = JSNum.int 1
      ∧ (run scenarioPlaying [Action.ended, Action.ended]).currentTrackIndex
          ≠ JSNum.int ((2 % 2 : Nat) : Int)
      ∧ (run scenarioPlaying [Action.ended, Action.ended, Action.ended]).currentTrackIndex
          = JSNum.int 1 := by
  decide

end MusicPlayer
